/-
  Verification of the basho/leveldb parallel SSTable builder core.

  Shallow embedding of:
    * util/perf_count.cc      (SstCounters, PerformanceCounters)
    * db/builder.cc           (BuildTable driver)
    * table/table_builder2.cc (TableBuilder2 block pipeline)
  together with theorems settling the frozen claims C1..C10.
-/
import Mathlib

set_option maxHeartbeats 1000000

namespace LevelDB

/-! ### Varint decoding (util/coding)

Modelled from the spec: `util/coding.cc` (`GetVarint32`, `GetVarint64`) is not
part of the provided sources; the spec describes the encoding as LevelDB
varints, i.e. little-endian base-128 with a continuation bit, at most 5 bytes
for a 32-bit value and at most 10 bytes for a 64-bit value.  Decoding consumes
bytes from the front of the slice and fails (`none`) when the input is
exhausted or the length bound is exceeded. -/

/-- One byte of input, as a natural number `< 256`. -/
abbrev Byte := Nat

/-- Modelled from the spec: core loop of LevelDB varint decoding.
`fuel` bounds the number of bytes consumed (5 for 32-bit, 10 for 64-bit). -/
def getVarintAux : Nat → Nat → Nat → List Byte → Option (Nat × List Byte)
  | 0, _, _, _ => none
  | _ + 1, _, _, [] => none
  | fuel + 1, shift, acc, b :: rest =>
      if b < 128 then
        some (acc + b * 2 ^ shift, rest)
      else
        getVarintAux fuel (shift + 7) (acc + (b % 128) * 2 ^ shift) rest

/-- Modelled from the spec: `GetVarint32`; truncates to 32 bits as the C++
value is stored in a `uint32_t`. -/
def getVarint32 (bs : List Byte) : Option (Nat × List Byte) :=
  (getVarintAux 5 0 0 bs).map fun p => (p.1 % 2 ^ 32, p.2)

/-- Modelled from the spec: `GetVarint64`. -/
def getVarint64 (bs : List Byte) : Option (Nat × List Byte) :=
  (getVarintAux 10 0 0 bs).map fun p => (p.1 % 2 ^ 64, p.2)

/-! ### Status (include/leveldb/status.h)

Modelled from the spec: the `Status` class is not in the provided sources.  A
default-constructed `Status` is the OK status; error statuses carry a kind and
a message.  Only `ok` and `corruption` are relevant here. -/

/-- Modelled from the spec: LevelDB `Status`, restricted to the kinds the
counter code could produce. -/
inductive LStatus where
  | ok : LStatus
  | corruption (msg : String) : LStatus
  deriving DecidableEq

/-- `Status::ok()`. -/
def LStatus.isOk : LStatus → Bool
  | LStatus.ok => true
  | LStatus.corruption _ => false

/-! ### SstCounters (util/perf_count.cc)

Counter storage is a fixed array of `eSstCountEnumSize` unsigned 64-bit
integers, modelled as a `List Nat` whose entries are kept below `2 ^ 64`.
The enum constants live in the (absent) header `leveldb/perf_count.h`;
their exact numeric values are immaterial to the claims, only that
`eSstCountCompressAborted < eSstCountEnumSize`. -/

/-- Modelled from the spec: number of entries of `SstCountEnum`
(header not in the sources; the exact value is immaterial). -/
def eSstCountEnumSize : Nat := 35

/-- Modelled from the spec: current `eSstCountVersion` (header not in the
sources; the exact value is immaterial). -/
def eSstCountVersion : Nat := 1

/-- Modelled from the spec: index of the "compression aborted" counter
(header not in the sources; any index below `eSstCountEnumSize` works). -/
def eSstCountCompressAborted : Nat := 16

/-- Modelled from the spec: indices of the block counters incremented by
`TableBuilder2::CompressBlock` (header not in the sources). -/
def eSstCountBlocks : Nat := 14

def eSstCountBlockSize : Nat := 15

def eSstCountBlockWriteSize : Nat := 17

/-- `class SstCounters` data members (util/perf_count.cc / perf_count.h). -/
structure SstCounters where
  m_IsReadOnly : Bool
  m_Version : Nat
  m_CounterSize : Nat
  m_Counter : List Nat
  deriving DecidableEq

namespace SstCounters

/-- `SstCounters::SstCounters()`: zeroed counters except the two "smallest"
trackers which start at the maximum counter value. -/
def init : SstCounters :=
  { m_IsReadOnly := false
    m_Version := eSstCountVersion
    m_CounterSize := eSstCountEnumSize
    m_Counter := List.replicate eSstCountEnumSize 0 }

/-- Loop of `SstCounters::DecodeFrom`: reads up to `remaining` varint64
values into successive counter cells starting at index `i`; stops (leaving
the remaining cells untouched) as soon as a varint fails to decode.
(When decoding fails the C++ assigns an indeterminate `val` to the current
cell; the model leaves the cell unchanged, which no claim depends on.) -/
def decodeLoop : List Byte → List Nat → Nat → Nat → List Nat
  | _, ctr, _, 0 => ctr
  | bs, ctr, i, remaining + 1 =>
      match getVarint64 bs with
      | none => ctr
      | some (v, rest) => decodeLoop rest (ctr.set i v) (i + 1) remaining

/-- `SstCounters::DecodeFrom(const Slice&)`, util/perf_count.cc lines 83-113.
Sets `m_IsReadOnly` unconditionally, decodes version and counter count,
clamps the count to `eSstCountEnumSize`, then reads the counter values.
`ret_status` is default-constructed (OK) and — per the commented-out line
`// if (!good) change ret_status to bad` — never changed. -/
def DecodeFrom (c : SstCounters) (src : List Byte) : LStatus × SstCounters :=
  let retStatus := LStatus.ok
  let c1 : SstCounters := { c with m_IsReadOnly := true }
  match getVarint32 src with
  | none => (retStatus, c1)
  | some (ver, cur1) =>
      let c2 : SstCounters := { c1 with m_Version := ver }
      if ver ≤ eSstCountVersion then
        match getVarint32 cur1 with
        | none => (retStatus, c2)
        | some (sz, cur2) =>
            let sz2 := if eSstCountEnumSize < sz then eSstCountEnumSize else sz
            let c3 : SstCounters := { c2 with m_CounterSize := sz2 }
            (retStatus,
             { c3 with m_Counter := decodeLoop cur2 c3.m_Counter 0 eSstCountEnumSize })
      else (retStatus, c2)

/-- `SstCounters::Inc(unsigned)`: guarded by `!m_IsReadOnly && Index<m_CounterSize`;
returns the post-increment value on success and 0 otherwise. -/
def Inc (c : SstCounters) (i : Nat) : Nat × SstCounters :=
  if c.m_IsReadOnly = false ∧ i < c.m_CounterSize then
    ((c.m_Counter.getD i 0 + 1) % 2 ^ 64,
     { c with m_Counter := c.m_Counter.set i ((c.m_Counter.getD i 0 + 1) % 2 ^ 64) })
  else (0, c)

/-- `SstCounters::Add(unsigned, CounterInt)`. -/
def Add (c : SstCounters) (i amount : Nat) : Nat × SstCounters :=
  if c.m_IsReadOnly = false ∧ i < c.m_CounterSize then
    ((c.m_Counter.getD i 0 + amount) % 2 ^ 64,
     { c with m_Counter := c.m_Counter.set i ((c.m_Counter.getD i 0 + amount) % 2 ^ 64) })
  else (0, c)

/-- `SstCounters::Value(unsigned) const`: no read-only guard, only bounds. -/
def Value (c : SstCounters) (i : Nat) : Nat :=
  if i < c.m_CounterSize then c.m_Counter.getD i 0 else 0

/-- `SstCounters::Set(unsigned, CounterInt)`: no read-only guard, only bounds. -/
def SetCtr (c : SstCounters) (i v : Nat) : SstCounters :=
  if i < c.m_CounterSize then
    { c with m_Counter := c.m_Counter.set i (v % 2 ^ 64) }
  else c

end SstCounters

/-! ### PerformanceCounters (util/perf_count.cc) -/

/-- Modelled from the spec: `ePerfCountEnumSize` (header not in the sources;
the name table in util/perf_count.cc lists 67 counters). -/
def ePerfCountEnumSize : Nat := 67

/-- Where `PerformanceCounters::GetPtr` points: a real counter cell or the
static `m_BogusCounter`. -/
inductive CtrPtr where
  | cell (idx : Nat) : CtrPtr
  | bogus : CtrPtr
  deriving DecidableEq

/-- `class PerformanceCounters` data members (instance fields only;
the shared-memory attachment of `Init` is out of scope). -/
structure PerformanceCounters where
  m_Version : Nat
  m_CounterSize : Nat
  m_Counter : List Nat
  deriving DecidableEq

namespace PerformanceCounters

/-- `PerformanceCounters::PerformanceCounters()`. -/
def init : PerformanceCounters :=
  { m_Version := 1
    m_CounterSize := ePerfCountEnumSize
    m_Counter := List.replicate ePerfCountEnumSize 0 }

/-- `PerformanceCounters::Inc(unsigned)` (the atomic add modelled
sequentially; C10 only concerns the bounds guard). -/
def Inc (p : PerformanceCounters) (i : Nat) : Nat × PerformanceCounters :=
  if i < p.m_CounterSize then
    ((p.m_Counter.getD i 0 + 1) % 2 ^ 64,
     { p with m_Counter := p.m_Counter.set i ((p.m_Counter.getD i 0 + 1) % 2 ^ 64) })
  else (0, p)

/-- `PerformanceCounters::Value(unsigned) const`. -/
def Value (p : PerformanceCounters) (i : Nat) : Nat :=
  if i < p.m_CounterSize then p.m_Counter.getD i 0 else 0

/-- `PerformanceCounters::Set(unsigned, CounterInt)`. -/
def SetCtr (p : PerformanceCounters) (i v : Nat) : PerformanceCounters :=
  if i < p.m_CounterSize then
    { p with m_Counter := p.m_Counter.set i (v % 2 ^ 64) }
  else p

/-- `PerformanceCounters::GetPtr(unsigned) const`: out-of-range indices are
redirected to the static bogus counter. -/
def GetPtr (p : PerformanceCounters) (i : Nat) : CtrPtr :=
  if i < p.m_CounterSize then CtrPtr.cell i else CtrPtr.bogus

end PerformanceCounters

/-! ### TableBuilder2::CompressBlock compression policy (table/table_builder2.cc)

Only the data the claims mention is modelled: the stored form of the block,
its compression type byte, and the SST counters.  `Snappy_Compress` is a
collaborator (port layer, not in the sources): its observable behaviour is
either failure (codec unavailable) or success with some output length, here
an `Option Nat`. -/

/-- `enum CompressionType` (include/leveldb/options.h): the two values the
switch in `CompressBlock` handles. -/
inductive CompressionType where
  | kNoCompression : CompressionType
  | kSnappyCompression : CompressionType
  deriving DecidableEq

/-- Result of the compression phase of `TableBuilder2::CompressBlock`
(table/table_builder2.cc lines 277-315): what ends up in the block buffer
and the updated SST counters. -/
structure CompressOutcome where
  storedType : CompressionType
  storedSize : Nat
  counters : SstCounters
  deriving DecidableEq

/-- `TableBuilder2::CompressBlock`, compression-policy portion
(table/table_builder2.cc lines 286-315).  `rawSize` is `raw.size()`;
`snappy = none` models `port::Snappy_Compress` returning false (codec
unavailable) and `snappy = some cs` success with `compressed.size() = cs`.
The stored form is the compressed bytes only when the codec succeeded and
`compressed.size() < raw.size() - raw.size()/8`; otherwise the raw form is
kept, the type reverts to `kNoCompression` and `eSstCountCompressAborted`
is incremented. -/
def CompressBlock (c : SstCounters) (compression : CompressionType)
    (rawSize : Nat) (snappy : Option Nat) : CompressOutcome :=
  let c1 := (c.Inc eSstCountBlocks).2
  let c2 := (c1.Add eSstCountBlockSize rawSize).2
  match compression with
  | CompressionType.kNoCompression =>
      { storedType := CompressionType.kNoCompression
        storedSize := rawSize
        counters := (c2.Add eSstCountBlockWriteSize rawSize).2 }
  | CompressionType.kSnappyCompression =>
      match snappy with
      | some cs =>
          if cs < rawSize - rawSize / 8 then
            { storedType := CompressionType.kSnappyCompression
              storedSize := cs
              counters := (c2.Add eSstCountBlockWriteSize cs).2 }
          else
            { storedType := CompressionType.kNoCompression
              storedSize := rawSize
              counters :=
                ((c2.Inc eSstCountCompressAborted).2.Add eSstCountBlockWriteSize rawSize).2 }
      | none =>
          { storedType := CompressionType.kNoCompression
            storedSize := rawSize
            counters :=
              ((c2.Inc eSstCountCompressAborted).2.Add eSstCountBlockWriteSize rawSize).2 }

/-! ### BuildTable driver (db/builder.cc)

The driver is modelled as a pure function from the outcomes of its
collaborator calls (file creation, builder finish, sync, close, reader
verification, iterator status) to its final status, `meta->file_size`, the
ordered trace of collaborator calls it makes, and whether a file remains on
disk.  The per-key loop body (retirement filter, `builder->Add`) does not
influence any of these outputs and is abstracted to the entry list. -/

/-- A collaborator call made by `BuildTable`. -/
inductive BuildEvent where
  | newFileCall : BuildEvent
  | finishCall : BuildEvent
  | abandonCall : BuildEvent
  | syncCall : BuildEvent
  | closeCall : BuildEvent
  | verifyCall : BuildEvent
  | deleteFileCall : BuildEvent
  deriving DecidableEq

/-- Environment of one `BuildTable` run: iterator contents and the statuses
each collaborator call would return. -/
structure BuildInput where
  iterEntries : List (String × String)
  iterFinalOk : Bool
  newFileOk : Bool
  builderOk : Bool
  finishWriteOk : Bool
  builderFileSize : Nat
  syncOk : Bool
  closeOk : Bool
  verifyOk : Bool
  deriving DecidableEq

/-- Observable outcome of `BuildTable`. -/
structure BuildResult where
  statusOk : Bool
  fileSize : Nat
  events : List BuildEvent
  fileOnDisk : Bool
  deriving DecidableEq

/-- db/builder.cc lines 60-69: `if (s.ok()) { s = builder->Finish(); ... }
else { builder->Abandon(); }`.  The branch condition is the driver's own
status `s` at that point (passed in as `s`), not the builder's status; the
builder's status only enters through the return value of `Finish`, modelled
as `builderOk && finishWriteOk`.  Returns the new `s`, `meta->file_size`,
and the call made. -/
def finishOrAbandon (s : Bool) (inp : BuildInput) : Bool × Nat × List BuildEvent :=
  if s then
    let fOk := inp.builderOk && inp.finishWriteOk
    (fOk, if fOk then inp.builderFileSize else 0, [BuildEvent.finishCall])
  else
    (s, 0, [BuildEvent.abandonCall])

/-- `BuildTable` (db/builder.cc lines 19-110).  The empty-iterator case skips
the whole file-producing block; `NewWritableFile` failure returns early
(line 38) before the deletion check; otherwise the driver status is still ok
at line 61 (nothing in the add loop assigns `s`), so `finishOrAbandon` is
applied to `true`, then `Sync`, `Close` and the reader verification each run
only while the status stays ok; the iterator status overrides at line 100;
and lines 104-108 delete the file unless the status is ok and
`meta->file_size` is positive. -/
def BuildTable (inp : BuildInput) : BuildResult :=
  if inp.iterEntries.isEmpty then
    let s := inp.iterFinalOk
    { statusOk := s, fileSize := 0
      events := [BuildEvent.deleteFileCall], fileOnDisk := false }
  else if inp.newFileOk = false then
    { statusOk := false, fileSize := 0
      events := [BuildEvent.newFileCall], fileOnDisk := false }
  else
    let step1 := finishOrAbandon true inp
    let s1 := step1.1
    let fsz := step1.2.1
    let ev1 := step1.2.2
    let step2 := if s1 then (inp.syncOk, ev1 ++ [BuildEvent.syncCall]) else (s1, ev1)
    let step3 := if step2.1 then (inp.closeOk, step2.2 ++ [BuildEvent.closeCall])
                 else step2
    let step4 := if step3.1 then (inp.verifyOk, step3.2 ++ [BuildEvent.verifyCall])
                 else step3
    let s5 := if inp.iterFinalOk then step4.1 else false
    if s5 = true ∧ fsz ≠ 0 then
      { statusOk := s5, fileSize := fsz
        events := BuildEvent.newFileCall :: step4.2, fileOnDisk := true }
    else
      { statusOk := s5, fileSize := fsz
        events := BuildEvent.newFileCall :: (step4.2 ++ [BuildEvent.deleteFileCall])
        fileOnDisk := false }

/-! ### Worker-thread joining (table/table_builder2.cc Finish/Abandon)

`m_Writers` holds the `pthread_t` handles created in the constructor;
`TableBuilder2::Finish` joins each and zeroes the slot, while
`TableBuilder2::Abandon` joins each nonzero slot but never zeroes it.
A ghost list records which handles have already been passed to
`pthread_join`, so a second join of the same handle (undefined behaviour)
is observable as the returned flag. -/

/-- Thread-management state of a `TableBuilder2`. -/
structure ThreadState where
  closed : Bool
  m_Finish : Bool
  m_Abort : Bool
  m_Writers : List Nat
  joinedHandles : List Nat
  deriving DecidableEq

/-- The join loop shared by `Finish` and `Abandon`: walks the handles,
joining each nonzero one; the returned flag records whether some handle
was joined for a second time. -/
def joinLoop : List Nat → List Nat → Bool → List Nat × Bool
  | [], joined, dbl => (joined, dbl)
  | h :: rest, joined, dbl =>
      if h ≠ 0 then joinLoop rest (h :: joined) (dbl || joined.contains h)
      else joinLoop rest joined dbl

/-- `TableBuilder2::Abandon` (table/table_builder2.cc lines 526-545): sets
`closed`, `m_Finish` and `m_Abort`, then joins every nonzero handle in
`m_Writers` — without zeroing the slots afterwards.  (The debug-build
`assert(!r->closed)` at line 529 is elided; release builds proceed.)
Returns the state and whether a handle was joined twice. -/
def Abandon (s : ThreadState) : ThreadState × Bool :=
  let s1 := { s with closed := true, m_Finish := true, m_Abort := true }
  let jl := joinLoop s1.m_Writers s1.joinedHandles false
  ({ s1 with joinedHandles := jl.1 }, jl.2)

/-- Join portion of `TableBuilder2::Finish` (table/table_builder2.cc lines
506-517): sets `m_Finish`, joins every handle and zeroes each slot
(`m_Writers[loop]=0`). -/
def FinishJoin (s : ThreadState) : ThreadState × Bool :=
  let s1 := { s with m_Finish := true }
  let jl := joinLoop s1.m_Writers s1.joinedHandles false
  ({ s1 with joinedHandles := jl.1
             m_Writers := s1.m_Writers.map fun _ => 0 }, jl.2)

/-- Thread state right after the `TableBuilder2` constructor: two worker
threads created (nonzero handles), nothing joined. -/
def initThreads : ThreadState :=
  { closed := false, m_Finish := false, m_Abort := false
    m_Writers := [1, 2], joinedHandles := [] }

/-! ### The TableBuilder2 block-ring pipeline (table/table_builder2.cc)

The scheduler state — slot lifecycle states, `key_shortened` flags, last
keys, the two ring cursors and the `m_Finish`/`m_Abort` flags — is
manipulated only inside `m_CvMutex` critical sections.  Each critical
section of `Add`, `Flush`, `WorkerThread`, `CompressBlock` and
`WriteBlock2` becomes one atomic transition; the interleaving of the one
ingest thread and the two worker threads becomes nondeterministic choice
among enabled transitions.  Block payloads, CRCs and the file are omitted:
no claim about the ring mentions them.  Each slot carries a ghost field
`enteredWriting`, set exactly on the transitions that assign
`eBNStateWriting` and cleared by `reset()`, recording whether the slot has
entered the Writing state since it was last reset. -/

/-- `BlockNState::eBNState*` slot lifecycle states (table_builder2.h,
listed in the spec). -/
inductive BState where
  | empty : BState
  | loading : BState
  | full : BState
  | compress : BState
  | keyWait : BState
  | ready : BState
  | writing : BState
  | copying : BState
  deriving DecidableEq

/-- One cell of the block ring: the scheduler-visible fields of
`BlockNState`, plus the ghost `enteredWriting`. -/
structure BlockNState where
  m_State : BState
  m_KeyShortened : Bool
  m_LastKey : String
  enteredWriting : Bool
  deriving DecidableEq

/-- `BlockNState::reset()`: modelled from the spec (the header is not in
the sources): state back to Empty, buffers cleared, `key_shortened=false`.
The ghost flag is cleared with it. -/
def BlockNState.reset0 : BlockNState :=
  { m_State := BState.empty, m_KeyShortened := false
    m_LastKey := "", enteredWriting := false }

/-- Modelled from the spec: ring size `eTB2Buffers` (N=5). -/
def eTB2Buffers : Nat := 5

/-- Modelled from the spec: worker-pool size `eTB2Threads` (2). -/
def eTB2Threads : Nat := 2

/-- Scheduler state of one `TableBuilder2`.  `okStatus` is `rep_->status.ok()`,
which gates `Add` and `Flush`. -/
structure TB2 where
  m_Blocks : Nat → BlockNState
  m_NextAdd : Nat
  m_NextWrite : Nat
  m_Finish : Bool
  m_Abort : Bool
  okStatus : Bool

/-- `(i+1) % eTB2Buffers`: ring successor. -/
def ringNext (i : Nat) : Nat := (i + 1) % eTB2Buffers

/-- `(i + eTB2Buffers - 1) % eTB2Buffers`: ring predecessor
(table_builder2.cc line 121). -/
def ringPred (i : Nat) : Nat := (i + (eTB2Buffers - 1)) % eTB2Buffers

/-- Replace ring cell `i`. -/
def setSlot (σ : TB2) (i : Nat) (b : BlockNState) : TB2 :=
  { σ with m_Blocks := fun j => if j = i then b else σ.m_Blocks j }

/-- First-key-of-a-new-block bookkeeping of `TableBuilder2::Add`
(table_builder2.cc lines 113-137), entered when the slot at `m_NextAdd` is
Empty: transition it to Loading; then, if the ring-predecessor is
non-Empty, shorten its last key with `FindShortestSeparator(prev.last_key,
key)`, set its `m_KeyShortened`, and if it was in KeyWait promote it to
Ready and broadcast (the returned flag records the `SignalAll`). -/
def addShorten (fss : String → String → String) (σ : TB2) (key : String) :
    TB2 × Bool :=
  if (σ.m_Blocks σ.m_NextAdd).m_State = BState.empty then
    let σ1 := setSlot σ σ.m_NextAdd
      { σ.m_Blocks σ.m_NextAdd with m_State := BState.loading }
    let pb := σ1.m_Blocks (ringPred σ.m_NextAdd)
    if pb.m_State ≠ BState.empty then
      if pb.m_State = BState.keyWait then
        (setSlot σ1 (ringPred σ.m_NextAdd)
          { pb with m_LastKey := fss pb.m_LastKey key
                    m_KeyShortened := true
                    m_State := BState.ready }, true)
      else
        (setSlot σ1 (ringPred σ.m_NextAdd)
          { pb with m_LastKey := fss pb.m_LastKey key
                    m_KeyShortened := true }, false)
    else (σ1, false)
  else (σ, false)

/-- `TableBuilder2::Add` (table_builder2.cc lines 68-158), scheduler-visible
effects of adding one key: requires `ok()` and (after the condition-variable
wait) the slot at `m_NextAdd` in Empty or Loading; performs the first-key
bookkeeping, then records `key` as the slot's `m_LastKey` (line 146).  The
block-content, filter and counter updates carry no scheduler state and are
omitted.  (The possible `Flush` call at the size threshold is a separate
transition.) -/
def addStep (fss : String → String → String) (σ : TB2) (key : String) :
    TB2 × Bool :=
  if σ.okStatus = true ∧ ((σ.m_Blocks σ.m_NextAdd).m_State = BState.empty
      ∨ (σ.m_Blocks σ.m_NextAdd).m_State = BState.loading) then
    let as := addShorten fss σ key
    (setSlot as.1 σ.m_NextAdd
      { as.1.m_Blocks σ.m_NextAdd with m_LastKey := key }, as.2)
  else (σ, false)

/-- `TableBuilder2::Flush` (table_builder2.cc lines 161-184): under `ok()`,
if the slot at `m_NextAdd` is Loading, mark it Full, advance `m_NextAdd`
and broadcast; otherwise change nothing. -/
def flushStep (σ : TB2) : TB2 × Bool :=
  if σ.okStatus = true then
    if (σ.m_Blocks σ.m_NextAdd).m_State = BState.loading then
      ({ setSlot σ σ.m_NextAdd
           { σ.m_Blocks σ.m_NextAdd with m_State := BState.full } with
         m_NextAdd := ringNext σ.m_NextAdd }, true)
    else (σ, false)
  else (σ, false)

/-- Worker acquisition, write case (table_builder2.cc lines 220-224): the
slot at `m_NextWrite` in Ready is claimed by moving it to Writing. -/
def takeWriteStep (σ : TB2) : TB2 :=
  if (σ.m_Blocks σ.m_NextWrite).m_State = BState.ready then
    setSlot σ σ.m_NextWrite
      { σ.m_Blocks σ.m_NextWrite with m_State := BState.writing
                                      enteredWriting := true }
  else σ

/-- Worker acquisition, compression case (table_builder2.cc lines 227-231):
any slot in Full is claimed by moving it to Compressing.  (The scan order
of the worker loop is abstracted into the nondeterministic choice of
`idx`.) -/
def takeCompressStep (σ : TB2) (idx : Nat) : TB2 :=
  if (σ.m_Blocks idx).m_State = BState.full then
    setSlot σ idx { σ.m_Blocks idx with m_State := BState.compress }
  else σ

/-- Terminal-block shortcut (table_builder2.cc lines 234-243): with
`m_Finish` set, the slot at `m_NextWrite` in KeyWait whose ring-successor
is Empty gets `FindShortSuccessor` applied to its last key,
`m_KeyShortened` set, and moves to Writing. -/
def finishShortcutStep (fsuc : String → String) (σ : TB2) : TB2 :=
  if σ.m_Finish = true ∧ (σ.m_Blocks σ.m_NextWrite).m_State = BState.keyWait
      ∧ (σ.m_Blocks (ringNext σ.m_NextWrite)).m_State = BState.empty then
    let b := σ.m_Blocks σ.m_NextWrite
    setSlot σ σ.m_NextWrite
      { b with m_LastKey := fsuc b.m_LastKey
               m_KeyShortened := true
               m_State := BState.writing
               enteredWriting := true }
  else σ

/-- Post-compression state update of `TableBuilder2::CompressBlock`
(table_builder2.cc lines 324-351): if the slot's key was already shortened
it becomes Writing when it sits at `m_NextWrite` (the worker then writes it
inline) and Ready otherwise; an unshortened slot parks in KeyWait. -/
def compressDoneStep (σ : TB2) (idx : Nat) : TB2 :=
  if (σ.m_Blocks idx).m_State = BState.compress then
    let b := σ.m_Blocks idx
    if b.m_KeyShortened = true then
      if idx = σ.m_NextWrite then
        setSlot σ idx { b with m_State := BState.writing, enteredWriting := true }
      else
        setSlot σ idx { b with m_State := BState.ready }
    else
      setSlot σ idx { b with m_State := BState.keyWait }
  else σ

/-- Ordered half of `TableBuilder2::WriteBlock2` (table_builder2.cc lines
455-463): once the index entry is recorded, the writing slot moves to
Copying and `m_NextWrite` advances, releasing the next writer before the
payload copy. -/
def writeAdvanceStep (σ : TB2) (idx : Nat) : TB2 :=
  if (σ.m_Blocks idx).m_State = BState.writing then
    { setSlot σ idx { σ.m_Blocks idx with m_State := BState.copying } with
      m_NextWrite := ringNext σ.m_NextWrite }
  else σ

/-- End of `TableBuilder2::WriteBlock2` (table_builder2.cc lines 483-489):
after the copy the slot is `reset()` back into the pile. -/
def writeResetStep (σ : TB2) (idx : Nat) : TB2 :=
  if (σ.m_Blocks idx).m_State = BState.copying then
    setSlot σ idx BlockNState.reset0
  else σ

/-- `TableBuilder2::Finish` signalling half (table_builder2.cc lines
506-511). -/
def setFinishStep (σ : TB2) : TB2 := { σ with m_Finish := true }

/-- `TableBuilder2::Abandon` signalling half (table_builder2.cc lines
534-539). -/
def setAbortStep (σ : TB2) : TB2 := { σ with m_Finish := true, m_Abort := true }

/-- `rep_->status` turning non-ok (e.g. `Allocate` failing in
`WriteBlock2`); only disables `Add`/`Flush`. -/
def statusFailStep (σ : TB2) : TB2 := { σ with okStatus := false }

/-- Scheduler state right after the `TableBuilder2` constructor: all slots
Empty, both cursors 0, flags clear. -/
def initTB2 : TB2 :=
  { m_Blocks := fun _ => BlockNState.reset0
    m_NextAdd := 0, m_NextWrite := 0
    m_Finish := false, m_Abort := false, okStatus := true }

/-- One atomic critical section of the pipeline, by any thread. -/
inductive Step (fss : String → String → String) (fsuc : String → String) :
    TB2 → TB2 → Prop where
  | add (σ : TB2) (key : String) : Step fss fsuc σ (addStep fss σ key).1
  | flush (σ : TB2) : Step fss fsuc σ (flushStep σ).1
  | takeWrite (σ : TB2) : Step fss fsuc σ (takeWriteStep σ)
  | takeCompress (σ : TB2) (idx : Nat) : Step fss fsuc σ (takeCompressStep σ idx)
  | finishShortcut (σ : TB2) : Step fss fsuc σ (finishShortcutStep fsuc σ)
  | compressDone (σ : TB2) (idx : Nat) : Step fss fsuc σ (compressDoneStep σ idx)
  | writeAdvance (σ : TB2) (idx : Nat) : Step fss fsuc σ (writeAdvanceStep σ idx)
  | writeReset (σ : TB2) (idx : Nat) : Step fss fsuc σ (writeResetStep σ idx)
  | setFinish (σ : TB2) : Step fss fsuc σ (setFinishStep σ)
  | setAbort (σ : TB2) : Step fss fsuc σ (setAbortStep σ)
  | statusFail (σ : TB2) : Step fss fsuc σ (statusFailStep σ)

/-- States of the pipeline reachable from construction. -/
inductive Reachable (fss : String → String → String) (fsuc : String → String) :
    TB2 → Prop where
  | base : Reachable fss fsuc initTB2
  | step {σ τ : TB2} : Reachable fss fsuc σ → Step fss fsuc σ τ →
      Reachable fss fsuc τ

/-- Per-slot invariant relating `m_KeyShortened` to the Writing state:
a Ready slot has its key shortened, a Writing slot has its key shortened
and has entered Writing, and a slot that has entered Writing (since its
last reset) has its key shortened. -/
def SlotInv (b : BlockNState) : Prop :=
  (b.m_State = BState.ready → b.m_KeyShortened = true)
  ∧ (b.m_State = BState.writing →
      b.m_KeyShortened = true ∧ b.enteredWriting = true)
  ∧ (b.enteredWriting = true → b.m_KeyShortened = true)

/-- The invariant, over the whole ring. -/
def PipelineInv (σ : TB2) : Prop := ∀ i, SlotInv (σ.m_Blocks i)

/-- A concrete comparator shortening function (identity-like), used only to
instantiate the parametric transition system at concrete states. -/
def fssId : String → String → String := fun a _ => a

/-- A concrete `FindShortSuccessor`, used only for instantiation. -/
def fsucId : String → String := fun a => a

/-- After `Add("a")` from the initial state: slot 0 Loading. -/
def exC4a : TB2 := (addStep fssId initTB2 "a").1

/-- After `Flush()`: slot 0 Full, `m_NextAdd = 1`. -/
def exC4b : TB2 := (flushStep exC4a).1

/-- After `Add("b")`: slot 1 Loading, and slot 0 — still Full, never yet in
Writing — has had its key shortened by the ingester. -/
def exC4 : TB2 := (addStep fssId exC4b "b").1

/-- A `BuildTable` run in which the assembler's status is bad at loop end
(`builderOk = false`) while everything else succeeds. -/
def exC1 : BuildInput :=
  { iterEntries := [("a", "v")], iterFinalOk := true, newFileOk := true
    builderOk := false, finishWriteOk := true, builderFileSize := 100
    syncOk := true, closeOk := true, verifyOk := true }

/-- A `BuildTable` run on an empty, error-free iterator. -/
def exC2 : BuildInput :=
  { iterEntries := [], iterFinalOk := true, newFileOk := true
    builderOk := true, finishWriteOk := true, builderFileSize := 0
    syncOk := true, closeOk := true, verifyOk := true }

/-! ## Helper lemmas -/

theorem getD_set_ne (l : List Nat) (i j v : Nat) (h : i ≠ j) :
    (l.set i v).getD j 0 = l.getD j 0 := by
  induction l generalizing i j with
  | nil => simp
  | cons a t ih =>
      cases i with
      | zero =>
          cases j with
          | zero => exact absurd rfl h
          | succ j2 => simp [List.set]
      | succ i2 =>
          cases j with
          | zero => simp [List.set]
          | succ j2 =>
              simpa [List.set] using ih i2 j2 (fun hh => h (by omega))

theorem getD_set_self (l : List Nat) (i v : Nat) (h : i < l.length) :
    (l.set i v).getD i 0 = v := by
  induction l generalizing i with
  | nil => simp at h
  | cons a t ih =>
      cases i with
      | zero => simp [List.set]
      | succ i2 => simpa [List.set] using ih i2 (by simpa using h)

theorem SstCounters.Inc_fields (c : SstCounters) (i : Nat) :
    (c.Inc i).2.m_IsReadOnly = c.m_IsReadOnly
    ∧ (c.Inc i).2.m_CounterSize = c.m_CounterSize
    ∧ (c.Inc i).2.m_Counter.length = c.m_Counter.length := by
  unfold SstCounters.Inc
  split_ifs <;> simp

theorem SstCounters.Add_fields (c : SstCounters) (i a : Nat) :
    (c.Add i a).2.m_IsReadOnly = c.m_IsReadOnly
    ∧ (c.Add i a).2.m_CounterSize = c.m_CounterSize
    ∧ (c.Add i a).2.m_Counter.length = c.m_Counter.length := by
  unfold SstCounters.Add
  split_ifs <;> simp

theorem SstCounters.Value_Inc_ne (c : SstCounters) (i j : Nat) (h : i ≠ j) :
    (c.Inc i).2.Value j = c.Value j := by
  unfold SstCounters.Inc SstCounters.Value
  by_cases h1 : c.m_IsReadOnly = false ∧ i < c.m_CounterSize
  · rw [if_pos h1]
    dsimp only
    by_cases h2 : j < c.m_CounterSize
    · rw [if_pos h2, if_pos h2]
      exact getD_set_ne _ _ _ _ h
    · rw [if_neg h2, if_neg h2]
  · rw [if_neg h1]

theorem SstCounters.Value_Add_ne (c : SstCounters) (i j a : Nat) (h : i ≠ j) :
    (c.Add i a).2.Value j = c.Value j := by
  unfold SstCounters.Add SstCounters.Value
  by_cases h1 : c.m_IsReadOnly = false ∧ i < c.m_CounterSize
  · rw [if_pos h1]
    dsimp only
    by_cases h2 : j < c.m_CounterSize
    · rw [if_pos h2, if_pos h2]
      exact getD_set_ne _ _ _ _ h
    · rw [if_neg h2, if_neg h2]
  · rw [if_neg h1]

theorem SstCounters.Value_Inc_self (c : SstCounters) (i : Nat)
    (h1 : c.m_IsReadOnly = false) (h2 : i < c.m_CounterSize)
    (h3 : c.m_CounterSize ≤ c.m_Counter.length) :
    (c.Inc i).2.Value i = (c.Value i + 1) % 2 ^ 64 := by
  unfold SstCounters.Inc SstCounters.Value
  have hc : c.m_IsReadOnly = false ∧ i < c.m_CounterSize := ⟨h1, h2⟩
  rw [if_pos hc]
  dsimp only
  rw [if_pos h2, if_pos h2]
  exact getD_set_self _ _ _ (lt_of_lt_of_le h2 h3)

theorem SstCounters.DecodeFrom_isReadOnly (c : SstCounters) (src : List Byte) :
    (c.DecodeFrom src).2.m_IsReadOnly = true := by
  unfold SstCounters.DecodeFrom
  rcases getVarint32 src with _ | ⟨ver, cur1⟩
  · rfl
  · dsimp only
    split_ifs
    · rcases getVarint32 cur1 with _ | ⟨sz, cur2⟩ <;> rfl
    · rfl

/-! ## Claim C8 -/

/-- C8: `SstCounters::DecodeFrom` returns a non-error status for every input
slice — including inputs on which varint decoding fails or the encoded
version is unrecognized — because `ret_status` is the default-constructed OK
status and is never reassigned; it never reports a corruption error. -/
theorem C8_decode_status_ok (c : SstCounters) (src : List Byte) :
    (SstCounters.DecodeFrom c src).1 = LStatus.ok := by
  unfold SstCounters.DecodeFrom
  rcases getVarint32 src with _ | ⟨ver, cur1⟩
  · rfl
  · dsimp only
    split_ifs
    · rcases getVarint32 cur1 with _ | ⟨sz, cur2⟩ <;> rfl
    · rfl

/-! ## Claim C9 -/

/-- C9: after `DecodeFrom` has run on an `SstCounters` object (on any input,
even a failing one), the object is read-only: every later `Inc` or `Add`
returns 0 and leaves the object — in particular every counter value —
unchanged, while `Value` and `Set` still operate on indices below the
counter-size field. -/
theorem C9_decode_makes_readonly (c : SstCounters) (src : List Byte)
    (i amount v : Nat) :
    (SstCounters.DecodeFrom c src).2.m_IsReadOnly = true
    ∧ SstCounters.Inc (SstCounters.DecodeFrom c src).2 i
        = (0, (SstCounters.DecodeFrom c src).2)
    ∧ SstCounters.Add (SstCounters.DecodeFrom c src).2 i amount
        = (0, (SstCounters.DecodeFrom c src).2)
    ∧ (i < (SstCounters.DecodeFrom c src).2.m_CounterSize →
        SstCounters.Value (SstCounters.DecodeFrom c src).2 i
          = (SstCounters.DecodeFrom c src).2.m_Counter.getD i 0
        ∧ SstCounters.SetCtr (SstCounters.DecodeFrom c src).2 i v
          = { (SstCounters.DecodeFrom c src).2 with
              m_Counter :=
                (SstCounters.DecodeFrom c src).2.m_Counter.set i (v % 2 ^ 64) }) := by
  have hro := SstCounters.DecodeFrom_isReadOnly c src
  refine ⟨hro, ?_, ?_, ?_⟩
  · unfold SstCounters.Inc
    rw [if_neg (by simp [hro])]
  · unfold SstCounters.Add
    rw [if_neg (by simp [hro])]
  · intro hlt
    constructor
    · unfold SstCounters.Value
      rw [if_pos hlt]
    · unfold SstCounters.SetCtr
      rw [if_pos hlt]

/-- Witness for C9 at a concrete decoded object. -/
theorem C9_decode_makes_readonly_witness :
    (SstCounters.DecodeFrom SstCounters.init []).2.m_IsReadOnly = true
    ∧ SstCounters.Inc (SstCounters.DecodeFrom SstCounters.init []).2 0
        = (0, (SstCounters.DecodeFrom SstCounters.init []).2)
    ∧ SstCounters.Add (SstCounters.DecodeFrom SstCounters.init []).2 0 3
        = (0, (SstCounters.DecodeFrom SstCounters.init []).2)
    ∧ (0 < (SstCounters.DecodeFrom SstCounters.init []).2.m_CounterSize →
        SstCounters.Value (SstCounters.DecodeFrom SstCounters.init []).2 0
          = (SstCounters.DecodeFrom SstCounters.init []).2.m_Counter.getD 0 0
        ∧ SstCounters.SetCtr (SstCounters.DecodeFrom SstCounters.init []).2 0 9
          = { (SstCounters.DecodeFrom SstCounters.init []).2 with
              m_Counter :=
                (SstCounters.DecodeFrom SstCounters.init []).2.m_Counter.set 0
                  (9 % 2 ^ 64) }) :=
  C9_decode_makes_readonly SstCounters.init [] 0 3 9

/-! ## Claim C10 -/

/-- C10: for every index at or above the counter-size field, `Inc`, `Add`
and `Set` on `SstCounters` and `Value` and `Set` on `PerformanceCounters`
leave every counter unchanged and return 0 (`Value` returns 0), and
`GetPtr` returns the dedicated bogus counter instead of going out of
bounds. -/
theorem C10_out_of_range_noop (c : SstCounters) (p : PerformanceCounters)
    (i j amount v : Nat) (hc : c.m_CounterSize ≤ i) (hp : p.m_CounterSize ≤ j) :
    SstCounters.Inc c i = (0, c)
    ∧ SstCounters.Add c i amount = (0, c)
    ∧ SstCounters.SetCtr c i v = c
    ∧ SstCounters.Value c i = 0
    ∧ PerformanceCounters.Value p j = 0
    ∧ PerformanceCounters.SetCtr p j v = p
    ∧ PerformanceCounters.GetPtr p j = CtrPtr.bogus := by
  have hci : ¬ i < c.m_CounterSize := by omega
  have hpj : ¬ j < p.m_CounterSize := by omega
  refine ⟨?_, ?_, ?_, ?_, ?_, ?_, ?_⟩ <;>
    simp [SstCounters.Inc, SstCounters.Add, SstCounters.SetCtr,
          SstCounters.Value, PerformanceCounters.Value,
          PerformanceCounters.SetCtr, PerformanceCounters.GetPtr, hci, hpj]

/-- Witness for C10 at index 100 of freshly constructed counter objects. -/
theorem C10_out_of_range_noop_witness :
    SstCounters.init.m_CounterSize ≤ 100
    ∧ PerformanceCounters.init.m_CounterSize ≤ 100
    ∧ SstCounters.Inc SstCounters.init 100 = (0, SstCounters.init)
    ∧ PerformanceCounters.GetPtr PerformanceCounters.init 100 = CtrPtr.bogus :=
  ⟨by decide, by decide,
   (C10_out_of_range_noop SstCounters.init PerformanceCounters.init 100 100 2 3
      (by decide) (by decide)).1,
   (C10_out_of_range_noop SstCounters.init PerformanceCounters.init 100 100 2 3
      (by decide) (by decide)).2.2.2.2.2.2⟩

/-! ## Claim C3 -/

/-- C3 counterexample: with the Snappy codec available and
`compressed.size()` equal to `raw - raw/8` exactly (raw = 8 bytes,
compressed = 7 bytes, `8 - 8/8 = 7`), the compressed size does NOT exceed
`raw - raw/8`, yet the code stores the raw form and increments the
compression-aborted counter — the test at table_builder2.cc line 303 is
strict (`<`), so equality aborts too, contrary to the claim. -/
theorem C3_counterexample :
    ¬ (8 - 8 / 8 < 7)
    ∧ (CompressBlock SstCounters.init CompressionType.kSnappyCompression 8
        (some 7)).storedType = CompressionType.kNoCompression
    ∧ (CompressBlock SstCounters.init CompressionType.kSnappyCompression 8
        (some 7)).storedSize = 8
    ∧ SstCounters.Value
        (CompressBlock SstCounters.init CompressionType.kSnappyCompression 8
          (some 7)).counters eSstCountCompressAborted = 1 :=
  ⟨by decide, by decide, by decide, by decide⟩

/-- C3 (amended): per Snappy block, the raw form is stored (with type
`kNoCompression`) and the compression-aborted counter is incremented by
exactly one iff compression is unavailable or the compressed size is at
least `raw - raw/8` (not merely strictly greater); when the compressed size
is strictly below `raw - raw/8` the compressed form is stored and the
counter stays. -/
theorem C3_snappy_policy (c : SstCounters) (rawSize : Nat) (snappy : Option Nat)
    (hro : c.m_IsReadOnly = false)
    (hsz : c.m_CounterSize = eSstCountEnumSize)
    (hlen : eSstCountEnumSize ≤ c.m_Counter.length) :
    ((snappy = none ∨ ∃ cs, snappy = some cs ∧ rawSize - rawSize / 8 ≤ cs) →
      (CompressBlock c CompressionType.kSnappyCompression rawSize snappy).storedType
          = CompressionType.kNoCompression
      ∧ (CompressBlock c CompressionType.kSnappyCompression rawSize
          snappy).storedSize = rawSize
      ∧ SstCounters.Value
          (CompressBlock c CompressionType.kSnappyCompression rawSize
            snappy).counters eSstCountCompressAborted
          = (SstCounters.Value c eSstCountCompressAborted + 1) % 2 ^ 64)
    ∧ (∀ cs, snappy = some cs → cs < rawSize - rawSize / 8 →
      (CompressBlock c CompressionType.kSnappyCompression rawSize snappy).storedType
          = CompressionType.kSnappyCompression
      ∧ (CompressBlock c CompressionType.kSnappyCompression rawSize
          snappy).storedSize = cs
      ∧ SstCounters.Value
          (CompressBlock c CompressionType.kSnappyCompression rawSize
            snappy).counters eSstCountCompressAborted
          = SstCounters.Value c eSstCountCompressAborted) := by
  have habortV :
      SstCounters.Value
        ((((c.Inc eSstCountBlocks).2.Add eSstCountBlockSize rawSize).2.Inc
            eSstCountCompressAborted).2.Add eSstCountBlockWriteSize rawSize).2
        eSstCountCompressAborted
      = (SstCounters.Value c eSstCountCompressAborted + 1) % 2 ^ 64 := by
    have h1 := SstCounters.Inc_fields c eSstCountBlocks
    have h2 := SstCounters.Add_fields (c.Inc eSstCountBlocks).2
      eSstCountBlockSize rawSize
    rw [SstCounters.Value_Add_ne _ _ _ _ (by decide)]
    rw [SstCounters.Value_Inc_self _ _ (by rw [h2.1, h1.1]; exact hro)
      (by rw [h2.2.1, h1.2.1, hsz]; decide)
      (by rw [h2.2.2, h1.2.2, h2.2.1, h1.2.1, hsz]; exact hlen)]
    rw [SstCounters.Value_Add_ne _ _ _ _ (by decide)]
    rw [SstCounters.Value_Inc_ne _ _ _ (by decide)]
  have hkeepV :
      SstCounters.Value ((c.Inc eSstCountBlocks).2.Add eSstCountBlockSize
        rawSize).2 eSstCountCompressAborted
      = SstCounters.Value c eSstCountCompressAborted := by
    rw [SstCounters.Value_Add_ne _ _ _ _ (by decide)]
    rw [SstCounters.Value_Inc_ne _ _ _ (by decide)]
  constructor
  · intro habort
    have hstep : CompressBlock c CompressionType.kSnappyCompression rawSize snappy
        = { storedType := CompressionType.kNoCompression
            storedSize := rawSize
            counters :=
              ((((c.Inc eSstCountBlocks).2.Add eSstCountBlockSize rawSize).2.Inc
                  eSstCountCompressAborted).2.Add eSstCountBlockWriteSize
                rawSize).2 } := by
      rcases habort with hnone | ⟨cs, hcs, hge⟩
      · rw [hnone]
        rfl
      · rw [hcs]
        simp only [CompressBlock]
        rw [if_neg (by omega)]
    rw [hstep]
    exact ⟨rfl, rfl, habortV⟩
  · intro cs hcs hlt
    rw [hcs]
    have hstep : CompressBlock c CompressionType.kSnappyCompression rawSize (some cs)
        = { storedType := CompressionType.kSnappyCompression
            storedSize := cs
            counters :=
              (((c.Inc eSstCountBlocks).2.Add eSstCountBlockSize rawSize).2.Add
                eSstCountBlockWriteSize cs).2 } := by
      simp only [CompressBlock]
      rw [if_pos hlt]
    rw [hstep]
    refine ⟨rfl, rfl, ?_⟩
    rw [SstCounters.Value_Add_ne _ _ _ _ (by decide)]
    exact hkeepV

/-! ## Claim C7 -/

/-- C7: the spec (P6) requires a second `Abandon` to be safe, but the code
is not — `Abandon`, unlike `Finish`, never zeroes the `m_Writers` handles
after joining them, so a second `Abandon` passes the already-joined handles
to `pthread_join` again (undefined behaviour); only the Finish-then-Abandon
sequence is safe.  The first call performs no double join, the second
does (and also trips the debug `assert(!r->closed)`, since the first call
set `closed`). -/
theorem C7_double_abandon :
    (Abandon initThreads).2 = false
    ∧ (Abandon initThreads).1.closed = true
    ∧ (Abandon (Abandon initThreads).1).2 = true
    ∧ (Abandon (FinishJoin initThreads).1).2 = false :=
  ⟨by decide, by decide, by decide, by decide⟩

/-- Witness for C3 (amended), abort branch: codec unavailable on a fresh
counter object. -/
theorem C3_snappy_policy_witness :
    SstCounters.init.m_IsReadOnly = false
    ∧ SstCounters.init.m_CounterSize = eSstCountEnumSize
    ∧ eSstCountEnumSize ≤ SstCounters.init.m_Counter.length
    ∧ ((CompressBlock SstCounters.init CompressionType.kSnappyCompression 8
          none).storedType = CompressionType.kNoCompression
       ∧ (CompressBlock SstCounters.init CompressionType.kSnappyCompression 8
          none).storedSize = 8
       ∧ SstCounters.Value
           (CompressBlock SstCounters.init CompressionType.kSnappyCompression 8
             none).counters eSstCountCompressAborted
           = (SstCounters.Value SstCounters.init eSstCountCompressAborted + 1)
               % 2 ^ 64) :=
  ⟨rfl, rfl, by decide,
   (C3_snappy_policy SstCounters.init 8 none rfl rfl (by decide)).1
     (Or.inl rfl)⟩

/-! ## Claim C1 -/

/-- C1 counterexample: with the assembler's status bad at loop end but the
driver's own status still ok, `BuildTable` calls `builder->Finish()` — it
never calls `Abandon`, because the branch at db/builder.cc line 61 tests
the driver's `s` (necessarily ok once `NewWritableFile` succeeded), not the
assembler's status. -/
theorem C1_counterexample :
    exC1.builderOk = false
    ∧ BuildEvent.finishCall ∈ (BuildTable exC1).events
    ∧ BuildEvent.abandonCall ∉ (BuildTable exC1).events :=
  ⟨rfl, by decide, by decide⟩

/-- C1 (amended): after the iterator is exhausted (non-empty input, file
created), the driver branches on its own status, which is still ok, so it
always calls `finish` and never `abandon`; `file.sync` is called exactly
when `finish` returned ok, and `file.close` exactly when `sync` also
returned ok, in the order finish, sync, close (followed by the reader
verification and possibly the file deletion). -/
theorem C1_finish_sequence (inp : BuildInput)
    (h1 : inp.iterEntries ≠ []) (h2 : inp.newFileOk = true) :
    BuildEvent.abandonCall ∉ (BuildTable inp).events
    ∧ (BuildTable inp).events
      = BuildEvent.newFileCall :: BuildEvent.finishCall ::
        ((if inp.builderOk && inp.finishWriteOk then [BuildEvent.syncCall] else [])
         ++ (if inp.builderOk && inp.finishWriteOk && inp.syncOk then
              [BuildEvent.closeCall] else [])
         ++ (if inp.builderOk && inp.finishWriteOk && inp.syncOk && inp.closeOk
             then [BuildEvent.verifyCall] else [])
         ++ (if inp.builderOk && inp.finishWriteOk && inp.syncOk && inp.closeOk
               && inp.verifyOk && inp.iterFinalOk && !(inp.builderFileSize == 0)
             then [] else [BuildEvent.deleteFileCall])) := by
  rcases inp with ⟨entries, iterOk, newOk, bOk, fwOk, fsz, sOk, cOk, vOk⟩
  dsimp only at h1 h2 ⊢
  subst h2
  have he : entries.isEmpty = false := by
    cases entries
    · exact absurd rfl h1
    · rfl
  cases iterOk <;> cases bOk <;> cases fwOk <;> cases sOk <;> cases cOk
    <;> cases vOk <;> by_cases hf : fsz = 0
    <;> simp [BuildTable, finishOrAbandon, he, hf]

/-- Witness for C1 (amended) at the concrete input `exC1`. -/
theorem C1_finish_sequence_witness :
    BuildEvent.abandonCall ∉ (BuildTable exC1).events
    ∧ (BuildTable exC1).events
      = BuildEvent.newFileCall :: BuildEvent.finishCall ::
        ((if exC1.builderOk && exC1.finishWriteOk then [BuildEvent.syncCall] else [])
         ++ (if exC1.builderOk && exC1.finishWriteOk && exC1.syncOk then
              [BuildEvent.closeCall] else [])
         ++ (if exC1.builderOk && exC1.finishWriteOk && exC1.syncOk && exC1.closeOk
             then [BuildEvent.verifyCall] else [])
         ++ (if exC1.builderOk && exC1.finishWriteOk && exC1.syncOk && exC1.closeOk
               && exC1.verifyOk && exC1.iterFinalOk && !(exC1.builderFileSize == 0)
             then [] else [BuildEvent.deleteFileCall])) :=
  C1_finish_sequence exC1 (by decide) rfl

/-! ## Claim C2 -/

/-- C2: `BuildTable` leaves a file on disk iff the final status is ok and
the final `meta->file_size` is nonzero; whenever the output file was
actually created (`NewWritableFile` succeeded — on its failure the driver
returns early, and on an empty iterator no file is ever created), the
`DeleteFile` call happens exactly when the final status is not ok or the
file size is 0; and an empty, error-free iterator yields success with
`file_size = 0` and no file on disk. -/
theorem C2_delete_iff (inp : BuildInput) :
    ((BuildTable inp).fileOnDisk = true
      ↔ ((BuildTable inp).statusOk = true ∧ (BuildTable inp).fileSize ≠ 0))
    ∧ (inp.newFileOk = true →
        (BuildEvent.deleteFileCall ∈ (BuildTable inp).events
          ↔ ¬ ((BuildTable inp).statusOk = true ∧ (BuildTable inp).fileSize ≠ 0)))
    ∧ (inp.iterEntries = [] → inp.iterFinalOk = true →
        (BuildTable inp).statusOk = true
        ∧ (BuildTable inp).fileSize = 0
        ∧ (BuildTable inp).fileOnDisk = false
        ∧ BuildEvent.deleteFileCall ∈ (BuildTable inp).events) := by
  rcases inp with ⟨entries, iterOk, newOk, bOk, fwOk, fsz, sOk, cOk, vOk⟩
  cases entries with
  | nil => cases iterOk <;> cases newOk <;> simp [BuildTable]
  | cons a t =>
      cases newOk
      · simp [BuildTable]
      · cases iterOk <;> cases bOk <;> cases fwOk <;> cases sOk <;> cases cOk
          <;> cases vOk <;> by_cases hf : fsz = 0
          <;> simp [BuildTable, finishOrAbandon, hf]

/-! ## Pipeline helper lemmas -/

theorem setSlot_blocks (σ : TB2) (i : Nat) (b : BlockNState) (j : Nat) :
    (setSlot σ i b).m_Blocks j = if j = i then b else σ.m_Blocks j := rfl

theorem ringPred_ne_self (i : Nat) : ringPred i ≠ i := by
  unfold ringPred eTB2Buffers
  intro h
  rcases Nat.lt_or_ge i 5 with h5 | h5
  · interval_cases i <;> simp_all
  · have hm : (i + 4) % 5 < 5 := Nat.mod_lt _ (by norm_num)
    omega

theorem SlotInv.mk (b : BlockNState)
    (h1 : b.m_State = BState.ready → b.m_KeyShortened = true)
    (h2 : b.m_State = BState.writing →
        b.m_KeyShortened = true ∧ b.enteredWriting = true)
    (h3 : b.enteredWriting = true → b.m_KeyShortened = true) : SlotInv b :=
  ⟨h1, h2, h3⟩

theorem slotInv_reset0 : SlotInv BlockNState.reset0 :=
  SlotInv.mk _ (fun hx => nomatch hx) (fun hx => nomatch hx)
    (fun hx => nomatch hx)

theorem pipelineInv_setSlot {σ : TB2} {i : Nat} {b : BlockNState}
    (h : PipelineInv σ) (hb : SlotInv b) : PipelineInv (setSlot σ i b) := by
  intro j
  rw [setSlot_blocks]
  split
  · exact hb
  · exact h j

theorem addShorten_inv (fss : String → String → String) (σ : TB2) (key : String)
    (h : PipelineInv σ) : PipelineInv (addShorten fss σ key).1 := by
  have hload : SlotInv { σ.m_Blocks σ.m_NextAdd with m_State := BState.loading } :=
    SlotInv.mk _ (fun hx => nomatch hx) (fun hx => nomatch hx)
      (h σ.m_NextAdd).2.2
  have hσ1 : PipelineInv (setSlot σ σ.m_NextAdd
      { σ.m_Blocks σ.m_NextAdd with m_State := BState.loading }) :=
    pipelineInv_setSlot h hload
  simp only [addShorten]
  split_ifs with h1 h2 h3
  · exact pipelineInv_setSlot hσ1
      (SlotInv.mk _ (fun _ => rfl) (fun hx => nomatch hx) (fun _ => rfl))
  · exact pipelineInv_setSlot hσ1
      (SlotInv.mk _ (fun _ => rfl)
        (fun hx => ⟨rfl, ((hσ1 (ringPred σ.m_NextAdd)).2.1 hx).2⟩)
        (fun _ => rfl))
  · exact hσ1
  · exact h

theorem addStep_inv (fss : String → String → String) (σ : TB2) (key : String)
    (h : PipelineInv σ) : PipelineInv (addStep fss σ key).1 := by
  simp only [addStep]
  split_ifs with h1
  · have hs := addShorten_inv fss σ key h
    exact pipelineInv_setSlot hs
      (SlotInv.mk _ (hs σ.m_NextAdd).1 (hs σ.m_NextAdd).2.1
        (hs σ.m_NextAdd).2.2)
  · exact h

theorem flushStep_inv (σ : TB2) (h : PipelineInv σ) :
    PipelineInv (flushStep σ).1 := by
  simp only [flushStep]
  split_ifs with h1 h2
  · exact pipelineInv_setSlot h
      (SlotInv.mk _ (fun hx => nomatch hx) (fun hx => nomatch hx)
        (h σ.m_NextAdd).2.2)
  · exact h
  · exact h

theorem takeWriteStep_inv (σ : TB2) (h : PipelineInv σ) :
    PipelineInv (takeWriteStep σ) := by
  simp only [takeWriteStep]
  split_ifs with h1
  · exact pipelineInv_setSlot h
      (SlotInv.mk _ (fun hx => nomatch hx)
        (fun _ => ⟨(h σ.m_NextWrite).1 h1, rfl⟩)
        (fun _ => (h σ.m_NextWrite).1 h1))
  · exact h

theorem takeCompressStep_inv (σ : TB2) (idx : Nat) (h : PipelineInv σ) :
    PipelineInv (takeCompressStep σ idx) := by
  simp only [takeCompressStep]
  split_ifs with h1
  · exact pipelineInv_setSlot h
      (SlotInv.mk _ (fun hx => nomatch hx) (fun hx => nomatch hx)
        (h idx).2.2)
  · exact h

theorem finishShortcutStep_inv (fsuc : String → String) (σ : TB2)
    (h : PipelineInv σ) : PipelineInv (finishShortcutStep fsuc σ) := by
  simp only [finishShortcutStep]
  split_ifs with h1
  · exact pipelineInv_setSlot h
      (SlotInv.mk _ (fun hx => nomatch hx) (fun _ => ⟨rfl, rfl⟩)
        (fun _ => rfl))
  · exact h

theorem compressDoneStep_inv (σ : TB2) (idx : Nat) (h : PipelineInv σ) :
    PipelineInv (compressDoneStep σ idx) := by
  simp only [compressDoneStep]
  split_ifs with h1 h2 h3
  · exact pipelineInv_setSlot h
      (SlotInv.mk _ (fun hx => nomatch hx) (fun _ => ⟨h2, rfl⟩)
        (fun _ => h2))
  · exact pipelineInv_setSlot h
      (SlotInv.mk _ (fun _ => h2) (fun hx => nomatch hx) (h idx).2.2)
  · exact pipelineInv_setSlot h
      (SlotInv.mk _ (fun hx => nomatch hx) (fun hx => nomatch hx)
        (h idx).2.2)
  · exact h

theorem writeAdvanceStep_inv (σ : TB2) (idx : Nat) (h : PipelineInv σ) :
    PipelineInv (writeAdvanceStep σ idx) := by
  simp only [writeAdvanceStep]
  split_ifs with h1
  · exact pipelineInv_setSlot h
      (SlotInv.mk _ (fun hx => nomatch hx) (fun hx => nomatch hx)
        (h idx).2.2)
  · exact h

theorem writeResetStep_inv (σ : TB2) (idx : Nat) (h : PipelineInv σ) :
    PipelineInv (writeResetStep σ idx) := by
  simp only [writeResetStep]
  split_ifs with h1
  · exact pipelineInv_setSlot h slotInv_reset0
  · exact h

/-- Witness for C2 at the concrete empty-iterator input `exC2`. -/
theorem C2_delete_iff_witness :
    ((BuildTable exC2).fileOnDisk = true
      ↔ ((BuildTable exC2).statusOk = true ∧ (BuildTable exC2).fileSize ≠ 0))
    ∧ (exC2.newFileOk = true →
        (BuildEvent.deleteFileCall ∈ (BuildTable exC2).events
          ↔ ¬ ((BuildTable exC2).statusOk = true ∧ (BuildTable exC2).fileSize ≠ 0)))
    ∧ (exC2.iterEntries = [] → exC2.iterFinalOk = true →
        (BuildTable exC2).statusOk = true
        ∧ (BuildTable exC2).fileSize = 0
        ∧ (BuildTable exC2).fileOnDisk = false
        ∧ BuildEvent.deleteFileCall ∈ (BuildTable exC2).events) :=
  C2_delete_iff exC2

/-! ## Claim C4 -/

/-- C4 counterexample: the claimed "iff" fails.  Three ingester steps from
the initial pipeline state — `Add("a")`, `Flush()`, `Add("b")` — reach a
state in which slot 0 has `key_shortened = true` (the ingester shortened it
at table_builder2.cc lines 125-127 when the successor block's first key
arrived) while the slot is still Full and has never entered Writing. -/
theorem C4_counterexample :
    Reachable fssId fsucId exC4
    ∧ (exC4.m_Blocks 0).m_KeyShortened = true
    ∧ (exC4.m_Blocks 0).enteredWriting = false
    ∧ (exC4.m_Blocks 0).m_State = BState.full :=
  ⟨Reachable.step
      (Reachable.step
        (Reachable.step Reachable.base (Step.add initTB2 "a"))
        (Step.flush exC4a))
      (Step.add exC4b "b"),
   by decide, by decide, by decide⟩

/-- C4 (amended): only one direction of the claimed iff holds, together with
both auxiliary sentences.  At every reachable state of the pipeline, every
slot that has entered Writing since its last reset has `key_shortened =
true` (in particular every transition into Writing happens with
`key_shortened` true, and a Ready slot is already shortened), but the
converse fails: `key_shortened` can be set on a slot well before it reaches
Writing — as soon as the first key of the successor block arrives. -/
theorem C4_key_shortened_invariant (fss : String → String → String)
    (fsuc : String → String) (σ : TB2) (h : Reachable fss fsuc σ) :
    PipelineInv σ := by
  induction h with
  | base => intro i; exact slotInv_reset0
  | step hr hs ih =>
      cases hs with
      | add key => exact addStep_inv fss _ key ih
      | flush => exact flushStep_inv _ ih
      | takeWrite => exact takeWriteStep_inv _ ih
      | takeCompress idx => exact takeCompressStep_inv _ idx ih
      | finishShortcut => exact finishShortcutStep_inv fsuc _ ih
      | compressDone idx => exact compressDoneStep_inv _ idx ih
      | writeAdvance idx => exact writeAdvanceStep_inv _ idx ih
      | writeReset idx => exact writeResetStep_inv _ idx ih
      | setFinish => exact ih
      | setAbort => exact ih
      | statusFail => exact ih

/-- Witness for C4 (amended) at the initial state, slot 0. -/
theorem C4_key_shortened_invariant_witness :
    SlotInv (initTB2.m_Blocks 0) :=
  C4_key_shortened_invariant fssId fsucId initTB2 Reachable.base 0

/-! ## Claim C5 -/

/-- C5: when `Add` receives the first key of a new block (slot at
`m_NextAdd` Empty, builder ok), it transitions that slot to Loading, and if
the ring-predecessor is non-Empty it rewrites the predecessor's last key to
`FindShortestSeparator(prev.last_key, current_key)`, sets the predecessor's
`key_shortened`, and — exactly when the predecessor was in KeyWait —
promotes it to Ready and broadcasts. -/
theorem C5_add_first_key (fss : String → String → String) (σ : TB2)
    (key : String) (hok : σ.okStatus = true)
    (hempty : (σ.m_Blocks σ.m_NextAdd).m_State = BState.empty) :
    ((addStep fss σ key).1.m_Blocks σ.m_NextAdd).m_State = BState.loading
    ∧ ((σ.m_Blocks (ringPred σ.m_NextAdd)).m_State ≠ BState.empty →
        ((addStep fss σ key).1.m_Blocks (ringPred σ.m_NextAdd)).m_LastKey
            = fss (σ.m_Blocks (ringPred σ.m_NextAdd)).m_LastKey key
        ∧ ((addStep fss σ key).1.m_Blocks
            (ringPred σ.m_NextAdd)).m_KeyShortened = true
        ∧ ((σ.m_Blocks (ringPred σ.m_NextAdd)).m_State = BState.keyWait →
            ((addStep fss σ key).1.m_Blocks (ringPred σ.m_NextAdd)).m_State
                = BState.ready
            ∧ (addStep fss σ key).2 = true)
        ∧ ((σ.m_Blocks (ringPred σ.m_NextAdd)).m_State ≠ BState.keyWait →
            ((addStep fss σ key).1.m_Blocks (ringPred σ.m_NextAdd)).m_State
                = (σ.m_Blocks (ringPred σ.m_NextAdd)).m_State
            ∧ (addStep fss σ key).2 = false))
    ∧ ((σ.m_Blocks (ringPred σ.m_NextAdd)).m_State = BState.empty →
        (addStep fss σ key).2 = false) := by
  have hne : ringPred σ.m_NextAdd ≠ σ.m_NextAdd := ringPred_ne_self σ.m_NextAdd
  have hg : σ.okStatus = true ∧ ((σ.m_Blocks σ.m_NextAdd).m_State = BState.empty
      ∨ (σ.m_Blocks σ.m_NextAdd).m_State = BState.loading) :=
    ⟨hok, Or.inl hempty⟩
  have hred : addStep fss σ key
      = (setSlot (addShorten fss σ key).1 σ.m_NextAdd
          { (addShorten fss σ key).1.m_Blocks σ.m_NextAdd with
            m_LastKey := key },
         (addShorten fss σ key).2) := by
    unfold addStep
    rw [if_pos hg]
  have hpb : (setSlot σ σ.m_NextAdd
        { σ.m_Blocks σ.m_NextAdd with m_State := BState.loading }).m_Blocks
        (ringPred σ.m_NextAdd)
      = σ.m_Blocks (ringPred σ.m_NextAdd) := by
    rw [setSlot_blocks, if_neg hne]
  by_cases hpe : (σ.m_Blocks (ringPred σ.m_NextAdd)).m_State = BState.empty
  · have hsh : addShorten fss σ key
        = (setSlot σ σ.m_NextAdd
            { σ.m_Blocks σ.m_NextAdd with m_State := BState.loading }, false) := by
      simp only [addShorten]
      rw [if_pos hempty, hpb, if_neg (by simp [hpe])]
    rw [hred, hsh]
    simp [setSlot_blocks, hne, hpe]
  · by_cases hkw : (σ.m_Blocks (ringPred σ.m_NextAdd)).m_State = BState.keyWait
    · have hsh : addShorten fss σ key
          = (setSlot (setSlot σ σ.m_NextAdd
               { σ.m_Blocks σ.m_NextAdd with m_State := BState.loading })
               (ringPred σ.m_NextAdd)
               { σ.m_Blocks (ringPred σ.m_NextAdd) with
                 m_LastKey := fss (σ.m_Blocks (ringPred σ.m_NextAdd)).m_LastKey key
                 m_KeyShortened := true
                 m_State := BState.ready }, true) := by
        simp only [addShorten]
        rw [if_pos hempty, hpb, if_pos hpe, if_pos hkw]
      rw [hred, hsh]
      simp [setSlot_blocks, hne, Ne.symm hne, hpe, hkw]
    · have hsh : addShorten fss σ key
          = (setSlot (setSlot σ σ.m_NextAdd
               { σ.m_Blocks σ.m_NextAdd with m_State := BState.loading })
               (ringPred σ.m_NextAdd)
               { σ.m_Blocks (ringPred σ.m_NextAdd) with
                 m_LastKey := fss (σ.m_Blocks (ringPred σ.m_NextAdd)).m_LastKey key
                 m_KeyShortened := true }, false) := by
        simp only [addShorten]
        rw [if_pos hempty, hpb, if_pos hpe, if_neg hkw]
      rw [hred, hsh]
      simp [setSlot_blocks, hne, Ne.symm hne, hpe, hkw]

/-- Witness for C5 at the initial pipeline state (Empty predecessor
branch). -/
theorem C5_add_first_key_witness :
    initTB2.okStatus = true
    ∧ (initTB2.m_Blocks initTB2.m_NextAdd).m_State = BState.empty
    ∧ ((addStep fssId initTB2 "k").1.m_Blocks initTB2.m_NextAdd).m_State
        = BState.loading
    ∧ ((initTB2.m_Blocks (ringPred initTB2.m_NextAdd)).m_State = BState.empty →
        (addStep fssId initTB2 "k").2 = false) :=
  ⟨rfl, rfl, (C5_add_first_key fssId initTB2 "k" rfl rfl).1,
   (C5_add_first_key fssId initTB2 "k" rfl rfl).2.2⟩

/-! ## Claim C6 -/

/-- C6: `Flush` (with the builder ok) moves the slot at `m_NextAdd` from
Loading to Full, advances `m_NextAdd` by one modulo the ring size, and
broadcasts — `Flush` itself checks no size threshold, so this happens even
below `block_size`; if the slot is not Loading (e.g. Empty), `Flush`
changes nothing. -/
theorem C6_flush (σ : TB2) :
    (σ.okStatus = true →
      (σ.m_Blocks σ.m_NextAdd).m_State = BState.loading →
      ((flushStep σ).1.m_Blocks σ.m_NextAdd).m_State = BState.full
      ∧ (flushStep σ).1.m_NextAdd = ringNext σ.m_NextAdd
      ∧ (flushStep σ).1.m_NextWrite = σ.m_NextWrite
      ∧ (flushStep σ).2 = true
      ∧ ∀ j, j ≠ σ.m_NextAdd → (flushStep σ).1.m_Blocks j = σ.m_Blocks j)
    ∧ ((σ.m_Blocks σ.m_NextAdd).m_State ≠ BState.loading →
      (flushStep σ).1 = σ ∧ (flushStep σ).2 = false) := by
  constructor
  · intro hok hload
    have hred : flushStep σ
        = ({ setSlot σ σ.m_NextAdd
              { σ.m_Blocks σ.m_NextAdd with m_State := BState.full } with
             m_NextAdd := ringNext σ.m_NextAdd }, true) := by
      unfold flushStep
      rw [if_pos hok, if_pos hload]
    rw [hred]
    refine ⟨?_, rfl, rfl, rfl, ?_⟩
    · show ((setSlot σ σ.m_NextAdd
          { σ.m_Blocks σ.m_NextAdd with m_State := BState.full }).m_Blocks
          σ.m_NextAdd).m_State = BState.full
      rw [setSlot_blocks, if_pos rfl]
    · intro j hj
      show (setSlot σ σ.m_NextAdd
          { σ.m_Blocks σ.m_NextAdd with m_State := BState.full }).m_Blocks j
          = σ.m_Blocks j
      rw [setSlot_blocks, if_neg hj]
  · intro hnl
    unfold flushStep
    by_cases h1 : σ.okStatus = true
    · rw [if_pos h1, if_neg hnl]
      exact ⟨rfl, rfl⟩
    · rw [if_neg h1]
      exact ⟨rfl, rfl⟩

/-- Witness for C6 on the state after one `Add` (slot 0 Loading). -/
theorem C6_flush_witness :
    exC4a.okStatus = true
    ∧ (exC4a.m_Blocks exC4a.m_NextAdd).m_State = BState.loading
    ∧ ((flushStep exC4a).1.m_Blocks exC4a.m_NextAdd).m_State = BState.full
    ∧ (flushStep exC4a).1.m_NextAdd = ringNext exC4a.m_NextAdd
    ∧ (flushStep exC4a).2 = true :=
  ⟨by decide, by decide,
   ((C6_flush exC4a).1 (by decide) (by decide)).1,
   ((C6_flush exC4a).1 (by decide) (by decide)).2.1,
   ((C6_flush exC4a).1 (by decide) (by decide)).2.2.2.1⟩

end LevelDB
